import Mathlib

/-!
Verification of the streaming persistence engine of the agent chat route
(`createAgentRouter` and its `_persistLoop` in `src/routes/agent.ts`).

The embedding models, faithfully to the TypeScript source:
  * JSON values and their serialization (for `JSON.stringify(content).length`);
  * the backing store (`prisma.chat_messages` create/update and the
    `chat_sessions.updated_at` touch), with an explicit write log;
  * the per-run persistence state (`accText`, `assistantMsgId`,
    `lastPersistedLen`, `lastPersistAt`, `toolState`);
  * `persistAssistant`, `persistTool`, `flushAssistantAndReset`, the
    steady-state threshold gate of `_persistLoop`, and the event switch;
  * the SSE data-line extraction of `_persistLoop`;
  * the process-wide active-run registry (`activeRuns`).

Store failures (exceptions thrown by a prisma call and swallowed by the
surrounding try/catch) are modelled by per-call success flags: `touchOk`
for the `chat_sessions.update` touch, `writeOk` for the message
create/update.  A failed call leaves the store log unchanged and, because
the source assigns the progress markers only after the awaited call
returns, aborts the rest of the function body exactly as a thrown
exception does.
-/

namespace AgentsBackend

/-- JSON values, as storable in the `content` column (`JsonValue` in the source). -/
inductive JsonValue where
  | null
  | bool (b : Bool)
  | num (n : Int)
  | str (s : String)
  | arr (xs : List JsonValue)
  | obj (fields : List (String × JsonValue))

/-- JSON string escaping for one character (quote, backslash, newline). -/
def escapeChar (c : Char) : List Char :=
  if c = '"' then ['\\', '"']
  else if c = '\\' then ['\\', '\\']
  else if c = '\n' then ['\\', 'n']
  else [c]

/-- Serialized form of a JSON string literal, quotes included. -/
def serStr (s : String) : String :=
  ⟨'"' :: (s.toList.foldr (fun c acc => escapeChar c ++ acc) ['"'])⟩

mutual
/-- `JSON.stringify` for a JSON value. -/
def JsonValue.ser : JsonValue → String
  | .null => "null"
  | .bool true => "true"
  | .bool false => "false"
  | .num n => toString n
  | .str s => serStr s
  | .arr xs => "[" ++ JsonValue.serItems xs ++ "]"
  | .obj fs => "\x7b" ++ JsonValue.serFields fs ++ "\x7d"

/-- Comma-separated serialization of array items. -/
def JsonValue.serItems : List JsonValue → String
  | [] => ""
  | [x] => x.ser
  | x :: y :: rest => x.ser ++ "," ++ JsonValue.serItems (y :: rest)

/-- Comma-separated serialization of object fields. -/
def JsonValue.serFields : List (String × JsonValue) → String
  | [] => ""
  | [(k, v)] => serStr k ++ ":" ++ v.ser
  | (k, v) :: f :: rest => serStr k ++ ":" ++ v.ser ++ "," ++ JsonValue.serFields (f :: rest)
end

/-- The tool variant of `MessageContent` as built in `persistTool`:
`{ type: 'tool', toolCallId, name, status, input?, output?, errorText? }`
(`undefined` fields are dropped by `JSON.stringify`, hence `Option`). -/
structure ToolContent where
  toolCallId : String
  name : String
  status : String
  input : Option JsonValue
  output : Option JsonValue
  errorText : Option String

/-- Serialization of an optional JSON-valued field (dropped when absent),
with its leading comma. -/
def optJsonField (key : String) : Option JsonValue → String
  | none => ""
  | some v => "," ++ serStr key ++ ":" ++ v.ser

/-- `JSON.stringify` of the tool message content, field order as written in
`persistTool`. -/
def ToolContent.ser (c : ToolContent) : String :=
  "\x7b" ++ serStr "type" ++ ":" ++ serStr "tool"
    ++ "," ++ serStr "toolCallId" ++ ":" ++ serStr c.toolCallId
    ++ "," ++ serStr "name" ++ ":" ++ serStr c.name
    ++ "," ++ serStr "status" ++ ":" ++ serStr c.status
    ++ optJsonField "input" c.input
    ++ optJsonField "output" c.output
    ++ (match c.errorText with
        | none => ""
        | some e => "," ++ serStr "errorText" ++ ":" ++ serStr e)
    ++ "\x7d"

/-- Structured message content (`MessageContent` in the source). -/
inductive MessageContent where
  | text (t : String)
  | tool (c : ToolContent)

/-- One row of `chat_messages` as this engine reads/writes it. -/
structure StoredMessage where
  id : Nat
  role : String
  content : MessageContent

/-- One successful backing-store write performed by the engine. -/
inductive StoreWrite where
  | sessionTouch
  | msgCreate (id : Nat) (role : String) (content : MessageContent)
  | msgUpdate (id : Nat) (content : MessageContent)

/-- The backing store: message rows, the id the next create returns
(ids are strictly increasing), and the log of successful writes
(newest first). -/
structure Store where
  nextId : Nat
  messages : List StoredMessage
  log : List StoreWrite

/-- `prisma.chat_sessions.update(... updated_at ...)`: refresh the
conversation's last-activity timestamp. -/
def Store.touch (s : Store) : Store :=
  { s with log := .sessionTouch :: s.log }

/-- `prisma.chat_messages.create`, returning the fresh id. -/
def Store.create (s : Store) (role : String) (content : MessageContent) : Store × Nat :=
  ({ s with
      nextId := s.nextId + 1
      messages := ⟨s.nextId, role, content⟩ :: s.messages
      log := .msgCreate s.nextId role content :: s.log }, s.nextId)

/-- `prisma.chat_messages.update` keyed by id, replacing the content. -/
def Store.update (s : Store) (id : Nat) (content : MessageContent) : Store :=
  { s with
      messages := s.messages.map (fun m => if m.id = id then { m with content := content } else m)
      log := .msgUpdate id content :: s.log }

/-- Is a log entry a message write (create or update), as opposed to the
conversation-timestamp touch? -/
def StoreWrite.isMsgWrite : StoreWrite → Bool
  | .msgCreate _ _ _ => true
  | .msgUpdate _ _ => true
  | .sessionTouch => false

/-- Number of message writes in a log. -/
def countMsgWrites (log : List StoreWrite) : Nat :=
  (log.filter StoreWrite.isMsgWrite).length

/-- Serialized length of the content carried by a message write. -/
def StoreWrite.writtenLen : StoreWrite → Option Nat
  | .msgCreate _ _ (.text t) => some (serStr t).length
  | .msgCreate _ _ (.tool c) => some c.ser.length
  | .msgUpdate _ (.text t) => some (serStr t).length
  | .msgUpdate _ (.tool c) => some c.ser.length
  | .sessionTouch => none

/-- Target message id of a message write. -/
def StoreWrite.writtenId : StoreWrite → Option Nat
  | .msgCreate i _ _ => some i
  | .msgUpdate i _ => some i
  | .sessionTouch => none

/-- Per-tool-call accumulation state (`toolState` map values in the source). -/
structure ToolState where
  id : Option Nat
  name : String
  status : Option String
  inputText : Option String
  input : Option JsonValue
  output : Option JsonValue
  errorText : Option String
  lastLen : Option Nat
  lastAt : Option Nat

/-- The persistence-path state of one run: the current assistant text
segment accumulator and the tool-call records. -/
structure RunState where
  accText : String
  assistantMsgId : Option Nat
  lastPersistedLen : Nat
  lastPersistAt : Nat
  toolState : List (String × ToolState)

/-- `toolState.get` (first entry with the key). -/
def lookupTool : List (String × ToolState) → String → Option ToolState
  | [], _ => none
  | (k, v) :: rest, id => if k = id then some v else lookupTool rest id

/-- `toolState.set`: replace in place, or append when absent. -/
def setTool : List (String × ToolState) → String → ToolState → List (String × ToolState)
  | [], id, st => [(id, st)]
  | (k, v) :: rest, id, st =>
      if k = id then (id, st) :: rest else (k, v) :: setTool rest id st

/-- `persistAssistant`: touch the conversation timestamp, then — unless the
segment is empty or unchanged since its last write — create the assistant
message on first write (recording the returned id) or update it by that id,
always with the full accumulated text; finally advance `lastPersistedLen`.
A store failure (`touchOk`/`writeOk` false) aborts the body at that point
and is swallowed by the try/catch, so no later assignment runs. -/
def persistAssistant (touchOk writeOk : Bool) (store : Store) (rs : RunState) :
    Store × RunState :=
  if !touchOk then (store, rs)
  else
    let store := store.touch
    if rs.accText = "" || rs.accText.length = rs.lastPersistedLen then (store, rs)
    else
      match rs.assistantMsgId with
      | none =>
          if !writeOk then (store, rs)
          else
            let p := store.create "assistant" (.text rs.accText)
            (p.1, { rs with
                      assistantMsgId := some p.2
                      lastPersistedLen := rs.accText.length })
      | some mid =>
          if !writeOk then (store, rs)
          else
            (store.update mid (.text rs.accText),
             { rs with lastPersistedLen := rs.accText.length })

/-- The content object `persistTool` builds from a tool record:
`input` falls back from structured input to the partial input text
(empty string ↦ dropped), `status` defaults to input-streaming. -/
def buildToolContent (toolCallId : String) (st : ToolState) : ToolContent :=
  { toolCallId := toolCallId
    name := st.name
    status :=
      match st.status with
      | some s => if s = "" then "input-streaming" else s
      | none => "input-streaming"
    input :=
      match st.input with
      | some v => some v
      | none =>
          match st.inputText with
          | some t => if t = "" then none else some (.str t)
          | none => none
    output := st.output
    errorText := st.errorText }

/-- `JSON.stringify(content).length` for a tool record's current content. -/
def toolCurLen (toolCallId : String) (st : ToolState) : Nat :=
  (buildToolContent toolCallId st).ser.length

/-- The `shouldWrite` gate of `persistTool`:
`force || typeof st.lastLen !== 'number' || curLen - (st.lastLen || 0) >= 64
|| Date.now() - (st.lastAt || 0) >= 300`. -/
def toolShouldWrite (now : Nat) (force : Bool) (st : ToolState) (curLen : Nat) : Bool :=
  force || st.lastLen.isNone
    || decide ((curLen : Int) - (st.lastLen.getD 0 : Nat) ≥ 64)
    || decide ((now : Int) - (st.lastAt.getD 0 : Nat) ≥ 300)

/-- `persistTool(toolCallId, force)`: touch the conversation timestamp;
if a record exists for the id, build its full cumulative content and —
when the `shouldWrite` gate passes — create the tool message on first
write (recording the id) or update it by the recorded id, then advance
`lastLen`/`lastAt`.  Store failures abort and are swallowed as in
`persistAssistant`. -/
def persistTool (now : Nat) (touchOk writeOk : Bool) (force : Bool)
    (toolCallId : String) (store : Store) (rs : RunState) : Store × RunState :=
  if !touchOk then (store, rs)
  else
    let store := store.touch
    match lookupTool rs.toolState toolCallId with
    | none => (store, rs)
    | some st =>
        let content := buildToolContent toolCallId st
        let curLen := content.ser.length
        if !toolShouldWrite now force st curLen then (store, rs)
        else
          match st.id with
          | none =>
              if !writeOk then (store, rs)
              else
                let p := store.create "tool" (.tool content)
                let st' := { st with id := some p.2, lastLen := some curLen, lastAt := some now }
                (p.1, { rs with toolState := setTool rs.toolState toolCallId st' })
          | some mid =>
              if !writeOk then (store, rs)
              else
                let st' := { st with lastLen := some curLen, lastAt := some now }
                (store.update mid (.tool content),
                 { rs with toolState := setTool rs.toolState toolCallId st' })

/-- `flushAssistantAndReset`: finalize the current assistant text segment
and reset the accumulator so the next text write allocates a fresh
message id. -/
def flushAssistantAndReset (now : Nat) (store : Store) (rs : RunState) :
    Store × RunState :=
  let p := persistAssistant true true store rs
  (p.1, { p.2 with
            accText := ""
            assistantMsgId := none
            lastPersistedLen := 0
            lastPersistAt := now })

/-- The steady-state threshold gate at the bottom of `_persistLoop`, run
after a chunk added text: flush when growth since the last write is at
least 64 characters or at least 300 ms elapsed since the last flush time,
then set `lastPersistAt := now`. -/
def loopGate (now : Nat) (store : Store) (rs : RunState) : Store × RunState :=
  if decide ((rs.accText.length : Int) - (rs.lastPersistedLen : Nat) ≥ 64)
      || decide ((now : Int) - (rs.lastPersistAt : Nat) ≥ 300) then
    let p := persistAssistant true true store rs
    (p.1, { p.2 with lastPersistAt := now })
  else (store, rs)

/-- A decoded stream event, the shapes the `_persistLoop` switch
dispatches on.  Tool events carry the already-extracted
`String(obj.toolCallId || obj.id || '')` and `obj.toolName || ''`
(so an absent name is the empty string); `errorText` likewise carries
the raw field with absence as the empty string, and the handler applies
the source's fallback message. -/
inductive StreamEvent where
  | textDelta (delta : String)
  | textEv (t : String)
  | toolInputStart (toolCallId toolName : String)
  | toolInputDelta (toolCallId toolName delta : String)
  | toolInputAvailable (toolCallId toolName : String) (input : JsonValue)
  | toolInputError (toolCallId toolName : String) (input : Option JsonValue) (errorText : String)
  | toolOutputAvail (toolCallId toolName : String) (output : JsonValue)
  | toolOutputErr (toolCallId toolName : String) (errorText : String)
  | fallbackText (t : String)

/-- The record `toolState.set` installs when a `tool-input-start` or
`tool-input-delta` event names an unknown tool-call id. -/
def freshToolStreaming (name : String) : ToolState :=
  { id := none, name := name, status := some "input-streaming"
    inputText := none, input := none, output := none, errorText := none
    lastLen := some 0, lastAt := some 0 }

/-- The record `toolState.set` installs when any other tool event names an
unknown tool-call id (no `status` field in the literal). -/
def freshToolBare (name : String) : ToolState :=
  { id := none, name := name, status := none
    inputText := none, input := none, output := none, errorText := none
    lastLen := some 0, lastAt := some 0 }

/-- Ensure a record exists for the id (`if (!toolState.has(id)) toolState.set(...)`). -/
def ensureTool (rs : RunState) (id : String) (fresh : ToolState) : RunState :=
  if (lookupTool rs.toolState id).isSome then rs
  else { rs with toolState := setTool rs.toolState id fresh }

/-- `st.name = obj.toolName || st.name`. -/
def updName (evName oldName : String) : String :=
  if evName = "" then oldName else evName

/-- One step of the `_persistLoop` event switch.  Returns the new store and
run state plus the `newTextAdded` flag.  Store writes inside the step use
the all-success store (failure handling is analysed on `persistAssistant`
and `persistTool` directly). -/
def handleEvent (now : Nat) (ev : StreamEvent) (store : Store) (rs : RunState) :
    Store × RunState × Bool :=
  match ev with
  | .textDelta d => (store, { rs with accText := rs.accText ++ d }, true)
  | .textEv t => (store, { rs with accText := rs.accText ++ t }, true)
  | .fallbackText t => (store, { rs with accText := rs.accText ++ t }, true)
  | .toolInputStart id name =>
      let p := flushAssistantAndReset now store rs
      let rs := ensureTool p.2 id (freshToolStreaming name)
      match lookupTool rs.toolState id with
      | none => (p.1, rs, false)
      | some st =>
          let st' := { st with name := updName name st.name, status := some "input-streaming" }
          let q := persistTool now true true true id p.1 { rs with toolState := setTool rs.toolState id st' }
          (q.1, q.2, false)
  | .toolInputDelta id name d =>
      let rs := ensureTool rs id (freshToolStreaming name)
      match lookupTool rs.toolState id with
      | none => (store, rs, false)
      | some st =>
          let st' := { st with
                        name := updName name st.name
                        inputText := some ((st.inputText.getD "") ++ d)
                        status := some "input-streaming" }
          let q := persistTool now true true false id store { rs with toolState := setTool rs.toolState id st' }
          (q.1, q.2, false)
  | .toolInputAvailable id name v =>
      let rs := ensureTool rs id (freshToolBare name)
      match lookupTool rs.toolState id with
      | none => (store, rs, false)
      | some st =>
          let st' := { st with
                        name := updName name st.name
                        input := some v
                        status := some "input-available" }
          let q := persistTool now true true true id store { rs with toolState := setTool rs.toolState id st' }
          (q.1, q.2, false)
  | .toolInputError id name v e =>
      let rs := ensureTool rs id (freshToolBare name)
      match lookupTool rs.toolState id with
      | none => (store, rs, false)
      | some st =>
          let st' := { st with
                        name := updName name st.name
                        input := match v with | some v' => some v' | none => st.input
                        errorText := some (if e = "" then "Tool input error" else e)
                        status := some "output-error" }
          let q := persistTool now true true true id store { rs with toolState := setTool rs.toolState id st' }
          (q.1, q.2, false)
  | .toolOutputAvail id name v =>
      let rs := ensureTool rs id (freshToolBare name)
      match lookupTool rs.toolState id with
      | none => (store, rs, false)
      | some st =>
          let st' := { st with
                        name := updName name st.name
                        output := some v
                        status := some "output-available" }
          let q := persistTool now true true true id store { rs with toolState := setTool rs.toolState id st' }
          (q.1, q.2, false)
  | .toolOutputErr id name e =>
      let rs := ensureTool rs id (freshToolBare name)
      match lookupTool rs.toolState id with
      | none => (store, rs, false)
      | some st =>
          let st' := { st with
                        name := updName name st.name
                        errorText := some (if e = "" then "Tool execution error" else e)
                        status := some "output-error" }
          let q := persistTool now true true true id store { rs with toolState := setTool rs.toolState id st' }
          (q.1, q.2, false)

/-- Process one decoded event arriving as its own chunk: run the switch,
then the steady-state threshold gate when the chunk added text. -/
def processEvent (now : Nat) (ev : StreamEvent) (store : Store) (rs : RunState) :
    Store × RunState :=
  let p := handleEvent now ev store rs
  if p.2.2 then loopGate now p.1 p.2.1 else (p.1, p.2.1)

/-- The whitespace characters relevant to the trims the source performs
(space, tab, carriage return, newline). -/
def isWs (c : Char) : Bool :=
  c == ' ' || c == '\t' || c == '\r' || c == '\n'

/-- `trimStart` over characters: drop leading whitespace. -/
def dropWs : List Char → List Char
  | [] => []
  | c :: cs => if isWs c then dropWs cs else c :: cs

/-- `trim` over characters: drop leading and trailing whitespace. -/
def trimChars (cs : List Char) : List Char :=
  dropWs (dropWs cs.reverse).reverse

/-- The event-data marker `data:`. -/
def dataMarker : List Char := "data:".toList

/-- The end-of-stream sentinel `[DONE]`. -/
def doneSentinel : List Char := "[DONE]".toList

/-- The per-line payload extraction of `_persistLoop`:
`const trimmed = line.trim(); if (!trimmed.startsWith('data:')) continue;
const data = trimmed.slice(5).trimStart(); if (!data || data === '[DONE]') continue`.
Returns the payload this line contributes, if any. -/
def dataLinePayload (line : List Char) : Option (List Char) :=
  let trimmed := trimChars line
  if dataMarker.isPrefixOf trimmed then
    let data := dropWs (trimmed.drop 5)
    if data = [] || data = doneSentinel then none else some data
  else none

/-- Modelled from the spec's words, for comparison with `dataLinePayload`:
only lines beginning with the marker contribute, the payload is the
line's remainder after the marker with exactly one leading space stripped
and everything else (further leading or trailing whitespace included)
preserved verbatim, and the `[DONE]` sentinel yields no event. -/
def specDataLinePayload (line : List Char) : Option (List Char) :=
  if dataMarker.isPrefixOf line then
    let rest := line.drop 5
    let payload :=
      match rest with
      | ' ' :: r => r
      | r => r
    if payload = doneSentinel then none else some payload
  else none

/-- All payloads contributed by the lines of one complete frame
(`frame.split('\n')` then the per-line extraction). -/
def framePayloads (lines : List (List Char)) : List (List Char) :=
  lines.filterMap dataLinePayload

/-- One registered run: the random run token and (standing for the
cancellation closure that cancels both branch readers and fires the abort
controller) the token under which its invocation is recorded. -/
structure ActiveRun where
  runKey : String

/-- The process-wide `activeRuns` map, conversation id to active run. -/
structure Registry where
  entries : List (String × ActiveRun)

/-- Assoc-list lookup backing `activeRuns.get`. -/
def getEntry : List (String × ActiveRun) → String → Option ActiveRun
  | [], _ => none
  | (k', v) :: rest, k => if k' = k then some v else getEntry rest k

/-- Assoc-list removal backing `activeRuns.delete`. -/
def delEntry : List (String × ActiveRun) → String → List (String × ActiveRun)
  | [], _ => []
  | (k', v) :: rest, k =>
      if k' = k then delEntry rest k else (k', v) :: delEntry rest k

/-- `activeRuns.get`. -/
def Registry.get (reg : Registry) (k : String) : Option ActiveRun :=
  getEntry reg.entries k

/-- `activeRuns.delete`. -/
def Registry.del (reg : Registry) (k : String) : Registry :=
  ⟨delEntry reg.entries k⟩

/-- `activeRuns.set`: replace in place, or append when absent. -/
def setEntry : List (String × ActiveRun) → String → ActiveRun → List (String × ActiveRun)
  | [], k, v => [(k, v)]
  | (k', v') :: rest, k, v =>
      if k' = k then (k, v) :: rest else (k', v') :: setEntry rest k v

/-- `activeRuns.set` on the registry. -/
def Registry.set (reg : Registry) (k : String) (v : ActiveRun) : Registry :=
  ⟨setEntry reg.entries k v⟩

/-- The supersede block of the chat handler: look up the previous run for
the conversation, invoke its cancellation capability (`try { prev.cancel() }
catch {}` — the invocation is recorded in the returned list), and delete
its entry. -/
def supersede (reg : Registry) (k : String) : Registry × List String :=
  match reg.get k with
  | some prev => (reg.del k, [prev.runKey])
  | none => (reg, [])

/-- The register step: `activeRuns.set(sessionKey, { runKey, cancel })`. -/
def registerRun (reg : Registry) (k : String) (run : ActiveRun) : Registry :=
  reg.set k run

/-- One atomic registry action of the chat handler.  A handler invocation
performs `supersedeStep` (lines 113–123) and later `registerStep`
(lines 199–215), but the two are separated by awaited suspension points —
the user-message create, the history query and the `agent.generate` call —
so between them the event loop may run the registry actions of a
concurrent request for the same conversation. -/
inductive RegAction where
  | supersedeStep
  | registerStep

/-- Execute one atomic registry action of the request `(k, run)` on the
shared state: the registry together with the log of cancellation
invocations made so far (recorded by cancelled run token). -/
def requestAction (k : String) (run : ActiveRun) (a : RegAction)
    (s : Registry × List String) : Registry × List String :=
  match a with
  | .supersedeStep =>
      let p := supersede s.1 k
      (p.1, s.2 ++ p.2)
  | .registerStep => (registerRun s.1 k run, s.2)

/-- Run a schedule: an interleaving of the atomic registry actions of any
number of requests, each entry naming the acting request's conversation
id and run. -/
def runSchedule (sched : List (String × ActiveRun × RegAction))
    (s : Registry × List String) : Registry × List String :=
  sched.foldl (fun acc step => requestAction step.1 step.2.1 step.2.2 acc) s

/-- A handler-order-respecting interleaving of two concurrent requests B
and C for conversation 42: B supersedes, then C supersedes and registers
in the window before B registers (each request still performs its own
supersede before its own register). -/
def interleavedSchedule : List (String × ActiveRun × RegAction) :=
  [("42", ⟨"runB"⟩, .supersedeStep), ("42", ⟨"runC"⟩, .supersedeStep),
   ("42", ⟨"runC"⟩, .registerStep), ("42", ⟨"runB"⟩, .registerStep)]

/-- The `finally` cleanup of `_persistLoop`:
`const cur = activeRuns.get(sessionKey); if (cur && cur.runKey === runKey)
activeRuns.delete(sessionKey)`. -/
def completeRun (reg : Registry) (k runKey : String) : Registry :=
  match reg.get k with
  | some cur => if cur.runKey = runKey then reg.del k else reg
  | none => reg

/-- Number of assoc-list entries held under a key. -/
def countKeyEntries : List (String × ActiveRun) → String → Nat
  | [], _ => 0
  | (k', _) :: rest, k => (if k' = k then 1 else 0) + countKeyEntries rest k

/-- Number of registry entries held for a conversation id. -/
def Registry.countKey (reg : Registry) (k : String) : Nat :=
  countKeyEntries reg.entries k

/-- The two branch readers obtained from `body.tee()`, by cancellation
flag: `readerClient` and `readerPersist`. -/
structure RelayState where
  clientCancelled : Bool
  persistCancelled : Bool

/-- The `cancel` callback of the returned `ReadableStream` (client
disconnect): cancel the client branch reader only, then run the immediate
best-effort `persistAssistant` flush.  The persistence branch reader is
untouched. -/
def onClientDisconnect (relay : RelayState) (store : Store) (rs : RunState) :
    RelayState × Store × RunState :=
  let p := persistAssistant true true store rs
  ({ relay with clientCancelled := true }, p.1, p.2)

/-! ## Helper lemmas -/

theorem lookupTool_setTool_self (ts : List (String × ToolState)) (id : String) (st : ToolState) :
    lookupTool (setTool ts id st) id = some st := by
  induction ts with
  | nil => simp [setTool, lookupTool]
  | cons h t ih =>
      by_cases hk : h.1 = id
      · simp [setTool, lookupTool, hk]
      · simpa [setTool, lookupTool, hk] using ih

theorem dropWs_idem (l : List Char) : dropWs (dropWs l) = dropWs l := by
  induction l with
  | nil => rfl
  | cons c cs ih =>
      by_cases h : isWs c = true
      · simp [dropWs, h, ih]
      · simp [dropWs, h]

theorem getEntry_delEntry_self (l : List (String × ActiveRun)) (k : String) :
    getEntry (delEntry l k) k = none := by
  induction l with
  | nil => rfl
  | cons h t ih =>
      by_cases hk : h.1 = k
      · simpa [delEntry, hk] using ih
      · simpa [delEntry, getEntry, hk] using ih

theorem registry_get_del_self (reg : Registry) (k : String) :
    (reg.del k).get k = none := by
  simp [Registry.del, Registry.get, getEntry_delEntry_self]

theorem getEntry_setEntry_self (l : List (String × ActiveRun)) (k : String) (v : ActiveRun) :
    getEntry (setEntry l k v) k = some v := by
  induction l with
  | nil => simp [setEntry, getEntry]
  | cons h t ih =>
      by_cases hk : h.1 = k
      · simp [setEntry, hk, getEntry]
      · simpa [setEntry, getEntry, hk] using ih

theorem registry_get_set_self (reg : Registry) (k : String) (v : ActiveRun) :
    (reg.set k v).get k = some v := by
  simp [Registry.set, Registry.get, getEntry_setEntry_self]

theorem countKeyEntries_delEntry (l : List (String × ActiveRun)) (k : String) :
    countKeyEntries (delEntry l k) k = 0 := by
  induction l with
  | nil => rfl
  | cons h t ih =>
      by_cases hk : h.1 = k
      · simpa [delEntry, hk] using ih
      · simpa [delEntry, countKeyEntries, hk] using ih

theorem countKeyEntries_setEntry_eq_one (l : List (String × ActiveRun)) (k : String)
    (v : ActiveRun) (h : countKeyEntries l k ≤ 1) :
    countKeyEntries (setEntry l k v) k = 1 := by
  induction l with
  | nil => simp [setEntry, countKeyEntries]
  | cons hd t ih =>
      by_cases hk : hd.1 = k
      · have ht : countKeyEntries t k = 0 := by
          simp [countKeyEntries, hk] at h
          omega
        simp [setEntry, countKeyEntries, hk, ht]
      · have ht : countKeyEntries t k ≤ 1 := by simpa [countKeyEntries, hk] using h
        simpa [setEntry, countKeyEntries, hk] using ih ht

theorem countKeyEntries_delEntry_other (l : List (String × ActiveRun)) (k' k : String)
    (h : k' ≠ k) :
    countKeyEntries (delEntry l k') k = countKeyEntries l k := by
  induction l with
  | nil => rfl
  | cons hd t ih =>
      by_cases hk : hd.1 = k'
      · simp [delEntry, countKeyEntries, hk, h, ih]
      · simp [delEntry, countKeyEntries, hk, ih]

theorem countKeyEntries_setEntry_other (l : List (String × ActiveRun)) (k' k : String)
    (v : ActiveRun) (h : k' ≠ k) :
    countKeyEntries (setEntry l k' v) k = countKeyEntries l k := by
  induction l with
  | nil => simp [setEntry, countKeyEntries, h]
  | cons hd t ih =>
      by_cases hk : hd.1 = k'
      · simp [setEntry, countKeyEntries, hk, h]
      · simp [setEntry, countKeyEntries, hk, ih]

/-! ## C1, C2: the active-run registry -/

/-- C1 counterexample: run A is registered for conversation 42 when
requests B and C arrive.  In the interleaving where B's supersede runs,
then C's supersede and register run in the suspension window before B's
register (each request still superseding before registering), run C is
the registered run at the moment B registers — yet the complete run's
cancellation log is just `["runA"]`: C's cancellation capability is
invoked zero times, not exactly once, and B's register overwrites C's
entry silently.  So supersede-then-register is not one atomic step with
respect to the registry map. -/
theorem supersede_register_interleaving_counterexample :
    (runSchedule (interleavedSchedule.take 3) (⟨[("42", ⟨"runA"⟩)]⟩, [])).1.get "42"
        = some ⟨"runC"⟩ ∧
    (runSchedule interleavedSchedule (⟨[("42", ⟨"runA"⟩)]⟩, [])).1.get "42"
        = some ⟨"runB"⟩ ∧
    (runSchedule interleavedSchedule (⟨[("42", ⟨"runA"⟩)]⟩, [])).2 = ["runA"] ∧
    "runC" ∉ (runSchedule interleavedSchedule (⟨[("42", ⟨"runA"⟩)]⟩, [])).2 :=
  ⟨rfl, rfl, rfl, by decide⟩

/-- C1 amended: the supersede block invokes the cancellation capability of
the run registered at that moment exactly once and removes its entry; the
register step leaves the registry holding exactly one entry for the
conversation id — the registering run's; and under every interleaving of
concurrent requests' supersede/register actions the registry never holds
two entries for one conversation id.  Supersede-then-register is not
atomic, however: awaited calls separate the two steps, so a request for
the same conversation can interleave between them, and a just-registered
run can then be overwritten without its cancellation capability ever
being invoked. -/
theorem activeRuns_supersede_register_discipline :
    (∀ (reg : Registry) (k : String) (old : ActiveRun), reg.get k = some old →
        (supersede reg k).2 = [old.runKey] ∧ (supersede reg k).1.get k = none) ∧
    (∀ (reg : Registry) (k : String) (run : ActiveRun),
        (registerRun reg k run).get k = some run ∧
        (reg.countKey k ≤ 1 → (registerRun reg k run).countKey k = 1)) ∧
    (∀ (sched : List (String × ActiveRun × RegAction)) (s : Registry × List String)
        (k : String), s.1.countKey k ≤ 1 → (runSchedule sched s).1.countKey k ≤ 1) := by
  refine ⟨?_, ?_, ?_⟩
  · intro reg k old hget
    constructor
    · simp [supersede, hget]
    · simp [supersede, hget, registry_get_del_self]
  · intro reg k run
    constructor
    · exact registry_get_set_self reg k run
    · intro h
      simpa [registerRun, Registry.set, Registry.countKey] using
        countKeyEntries_setEntry_eq_one reg.entries k run h
  · intro sched
    induction sched with
    | nil => intro s k h; exact h
    | cons step rest ih =>
        intro s k h
        refine ih (requestAction step.1 step.2.1 step.2.2 s) k ?_
        rcases step with ⟨k', run, a⟩
        cases a with
        | supersedeStep =>
            show ((supersede s.1 k').1, _).1.countKey k ≤ 1
            cases hg : s.1.get k' with
            | none => simpa [supersede, hg] using h
            | some prev =>
                by_cases hk : k' = k
                · subst hk
                  simp [supersede, hg, Registry.del, Registry.countKey,
                    countKeyEntries_delEntry]
                · simpa [supersede, hg, Registry.del, Registry.countKey,
                    countKeyEntries_delEntry_other _ _ _ hk] using h
        | registerStep =>
            show ((registerRun s.1 k' run), _).1.countKey k ≤ 1
            by_cases hk : k' = k
            · subst hk
              simpa [registerRun, Registry.set, Registry.countKey] using
                le_of_eq (countKeyEntries_setEntry_eq_one s.1.entries k' run h)
            · simpa [registerRun, Registry.set, Registry.countKey,
                countKeyEntries_setEntry_other _ _ _ _ hk] using h

/-- C1 amended, witness: superseding conversation 42 (holding run A)
cancels A exactly once and clears the entry; registering run B leaves
exactly one entry — B's; and the interleaved two-request schedule of the
counterexample still never holds two entries for conversation 42. -/
theorem activeRuns_supersede_register_discipline_witness :
    ((supersede ⟨[("42", ⟨"runA"⟩)]⟩ "42").2 = ["runA"] ∧
     (supersede ⟨[("42", ⟨"runA"⟩)]⟩ "42").1.get "42" = none) ∧
    ((registerRun ⟨[]⟩ "42" ⟨"runB"⟩).get "42" = some ⟨"runB"⟩ ∧
     ((⟨[]⟩ : Registry).countKey "42" ≤ 1 →
        (registerRun ⟨[]⟩ "42" ⟨"runB"⟩).countKey "42" = 1)) ∧
    (runSchedule interleavedSchedule (⟨[("42", ⟨"runA"⟩)]⟩, [])).1.countKey "42" ≤ 1 :=
  ⟨activeRuns_supersede_register_discipline.1 ⟨[("42", ⟨"runA"⟩)]⟩ "42" ⟨"runA"⟩ rfl,
   activeRuns_supersede_register_discipline.2.1 ⟨[]⟩ "42" ⟨"runB"⟩,
   activeRuns_supersede_register_discipline.2.2 interleavedSchedule
     (⟨[("42", ⟨"runA"⟩)]⟩, []) "42" (by decide)⟩

/-- C2: the completion cleanup removes the registry entry only when the
stored run token still equals the completing run's own token; a stale
run's late completion leaves a newer run's entry untouched. -/
theorem completeRun_token_guard (reg : Registry) (k tok : String) (cur : ActiveRun)
    (hget : reg.get k = some cur) :
    (cur.runKey ≠ tok → completeRun reg k tok = reg) ∧
    (cur.runKey = tok → (completeRun reg k tok).get k = none) := by
  constructor
  · intro h
    simp [completeRun, hget, h]
  · intro h
    simp [completeRun, hget, h, registry_get_del_self]

/-- C2 witness: a stale run (token runA) completing after being superseded
by runB does not delete runB's entry; the current run's own completion
does delete it. -/
theorem completeRun_token_guard_witness :
    completeRun ⟨[("42", ⟨"runB"⟩)]⟩ "42" "runA" = ⟨[("42", ⟨"runB"⟩)]⟩ ∧
    (completeRun ⟨[("42", ⟨"runB"⟩)]⟩ "42" "runB").get "42" = none :=
  ⟨(completeRun_token_guard ⟨[("42", ⟨"runB"⟩)]⟩ "42" "runA" ⟨"runB"⟩ rfl).1 (by decide),
   (completeRun_token_guard ⟨[("42", ⟨"runB"⟩)]⟩ "42" "runB" ⟨"runB"⟩ rfl).2 rfl⟩

/-! ## Case lemmas for the flusher -/

/-- The message write `persistAssistant` issues when the segment has
unflushed growth: a create of the full text on first write, an update
keyed by the recorded id afterwards. -/
def assistantWriteFor (store : Store) (rs : RunState) : StoreWrite :=
  match rs.assistantMsgId with
  | none => .msgCreate store.nextId "assistant" (.text rs.accText)
  | some m => .msgUpdate m (.text rs.accText)

theorem persistAssistant_touchFail (w : Bool) (store : Store) (rs : RunState) :
    persistAssistant false w store rs = (store, rs) := rfl

theorem persistAssistant_skip (w : Bool) (store : Store) (rs : RunState)
    (h : rs.accText = "" ∨ rs.accText.length = rs.lastPersistedLen) :
    persistAssistant true w store rs = (store.touch, rs) := by
  unfold persistAssistant
  rcases h with h | h <;> simp [h]

theorem persistAssistant_writeFail (store : Store) (rs : RunState)
    (hne : rs.accText ≠ "") (hgrow : rs.accText.length ≠ rs.lastPersistedLen) :
    persistAssistant true false store rs = (store.touch, rs) := by
  unfold persistAssistant
  cases hid : rs.assistantMsgId <;> simp [hne, hgrow, hid]

theorem persistAssistant_create (store : Store) (rs : RunState)
    (hne : rs.accText ≠ "") (hgrow : rs.accText.length ≠ rs.lastPersistedLen)
    (hid : rs.assistantMsgId = none) :
    persistAssistant true true store rs =
      (((store.touch).create "assistant" (.text rs.accText)).1,
       { rs with assistantMsgId := some store.nextId,
                 lastPersistedLen := rs.accText.length }) := by
  unfold persistAssistant
  simp [hne, hgrow, hid, Store.create, Store.touch]

theorem persistAssistant_update (store : Store) (rs : RunState) (m : Nat)
    (hne : rs.accText ≠ "") (hgrow : rs.accText.length ≠ rs.lastPersistedLen)
    (hid : rs.assistantMsgId = some m) :
    persistAssistant true true store rs =
      ((store.touch).update m (.text rs.accText),
       { rs with lastPersistedLen := rs.accText.length }) := by
  unfold persistAssistant
  simp [hne, hgrow, hid]

/-- The log and progress marker of a successful flush with unflushed
growth: one message write of the full accumulated text on top of the
timestamp touch, and the marker advanced to the full length. -/
theorem persistAssistant_write_log (store : Store) (rs : RunState)
    (hne : rs.accText ≠ "") (hgrow : rs.accText.length ≠ rs.lastPersistedLen) :
    (persistAssistant true true store rs).1.log
        = assistantWriteFor store rs :: .sessionTouch :: store.log ∧
    (persistAssistant true true store rs).2.lastPersistedLen = rs.accText.length := by
  cases hid : rs.assistantMsgId with
  | none =>
      rw [persistAssistant_create store rs hne hgrow hid]
      simp [assistantWriteFor, hid, Store.create, Store.touch]
  | some m =>
      rw [persistAssistant_update store rs m hne hgrow hid]
      simp [assistantWriteFor, hid, Store.update, Store.touch]

theorem persistTool_touchFail (now : Nat) (w f : Bool) (id : String)
    (store : Store) (rs : RunState) :
    persistTool now false w f id store rs = (store, rs) := rfl

theorem persistTool_noRecord (now : Nat) (w f : Bool) (id : String)
    (store : Store) (rs : RunState) (h : lookupTool rs.toolState id = none) :
    persistTool now true w f id store rs = (store.touch, rs) := by
  unfold persistTool
  simp [h]

theorem persistTool_noWrite (now : Nat) (w f : Bool) (id : String)
    (store : Store) (rs : RunState) (st : ToolState)
    (h : lookupTool rs.toolState id = some st)
    (hw : toolShouldWrite now f st (toolCurLen id st) = false) :
    persistTool now true w f id store rs = (store.touch, rs) := by
  unfold persistTool
  rw [toolCurLen] at hw
  simp [h, hw]

theorem persistTool_writeFail (now : Nat) (f : Bool) (id : String)
    (store : Store) (rs : RunState) (st : ToolState)
    (h : lookupTool rs.toolState id = some st) :
    persistTool now true false f id store rs = (store.touch, rs) := by
  unfold persistTool
  rcases hw : toolShouldWrite now f st ((buildToolContent id st).ser.length) with _ | _ <;>
    cases hid : st.id <;> simp [h, hw, hid]

/-- A tool record after a successful write: message id possibly recorded,
`lastLen`/`lastAt` advanced; the content fields are untouched. -/
def ToolState.afterWrite (st : ToolState) (mid : Option Nat) (len now : Nat) : ToolState :=
  { st with id := mid, lastLen := some len, lastAt := some now }

/-- Replace the record held for a tool-call id. -/
def RunState.withTool (rs : RunState) (id : String) (st : ToolState) : RunState :=
  { rs with toolState := setTool rs.toolState id st }

theorem persistTool_create (now : Nat) (f : Bool) (id : String)
    (store : Store) (rs : RunState) (st : ToolState)
    (h : lookupTool rs.toolState id = some st) (hid : st.id = none)
    (hw : toolShouldWrite now f st (toolCurLen id st) = true) :
    persistTool now true true f id store rs =
      (((store.touch).create "tool" (.tool (buildToolContent id st))).1,
       rs.withTool id (st.afterWrite (some store.nextId) (toolCurLen id st) now)) := by
  unfold persistTool
  rw [toolCurLen] at hw
  simp [h, hw, hid, toolCurLen, Store.create, Store.touch,
    RunState.withTool, ToolState.afterWrite]

theorem persistTool_update (now : Nat) (f : Bool) (id : String)
    (store : Store) (rs : RunState) (st : ToolState) (m : Nat)
    (h : lookupTool rs.toolState id = some st) (hid : st.id = some m)
    (hw : toolShouldWrite now f st (toolCurLen id st) = true) :
    persistTool now true true f id store rs =
      ((store.touch).update m (.tool (buildToolContent id st)),
       rs.withTool id (st.afterWrite st.id (toolCurLen id st) now)) := by
  unfold persistTool
  rw [toolCurLen] at hw
  simp [h, hw, hid, toolCurLen, RunState.withTool, ToolState.afterWrite]

@[simp] theorem countMsgWrites_touch (l : List StoreWrite) :
    countMsgWrites (.sessionTouch :: l) = countMsgWrites l := by
  simp [countMsgWrites, StoreWrite.isMsgWrite]

theorem persistAssistant_log_cases (t w : Bool) (store : Store) (rs : RunState) :
    (persistAssistant t w store rs).1.log = store.log ∨
    (persistAssistant t w store rs).1.log = .sessionTouch :: store.log ∨
    (persistAssistant t w store rs).1.log =
      assistantWriteFor store rs :: .sessionTouch :: store.log := by
  cases t with
  | false => left; rw [persistAssistant_touchFail]
  | true =>
      by_cases hne : rs.accText = ""
      · right; left; rw [persistAssistant_skip _ _ _ (Or.inl hne)]; rfl
      · by_cases hgrow : rs.accText.length = rs.lastPersistedLen
        · right; left; rw [persistAssistant_skip _ _ _ (Or.inr hgrow)]; rfl
        · cases w with
          | false => right; left; rw [persistAssistant_writeFail _ _ hne hgrow]; rfl
          | true => right; right; exact (persistAssistant_write_log store rs hne hgrow).1

theorem persistTool_log_cases (now : Nat) (t w f : Bool) (id : String)
    (store : Store) (rs : RunState) :
    (persistTool now t w f id store rs).1.log = store.log ∨
    (persistTool now t w f id store rs).1.log = .sessionTouch :: store.log ∨
    ∃ wr : StoreWrite, wr.isMsgWrite = true ∧
      (persistTool now t w f id store rs).1.log = wr :: .sessionTouch :: store.log := by
  cases t with
  | false => left; rw [persistTool_touchFail]
  | true =>
      cases h : lookupTool rs.toolState id with
      | none => right; left; rw [persistTool_noRecord _ _ _ _ _ _ h]; rfl
      | some st =>
          by_cases hw : toolShouldWrite now f st (toolCurLen id st) = true
          · cases w with
            | false => right; left; rw [persistTool_writeFail _ _ _ _ _ _ h]; rfl
            | true =>
                cases hid : st.id with
                | none =>
                    right; right
                    refine ⟨.msgCreate store.nextId "tool" (.tool (buildToolContent id st)), rfl, ?_⟩
                    rw [persistTool_create _ _ _ _ _ _ h hid hw]
                    simp [Store.create, Store.touch]
                | some m =>
                    right; right
                    refine ⟨.msgUpdate m (.tool (buildToolContent id st)), rfl, ?_⟩
                    rw [persistTool_update _ _ _ _ _ _ m h hid hw]
                    simp [Store.update, Store.touch]
          · right; left
            rw [persistTool_noWrite _ _ _ _ _ _ _ h (Bool.of_not_eq_true hw)]; rfl

/-! ## C3: flush with no new content (corrected) -/

/-- A store holding one tool message, as left by an earlier write. -/
def emptyStore : Store := ⟨1, [], []⟩

/-- A tool record already written once whose content has not changed
since: `lastLen` is filled in below with the current serialized length. -/
def idleToolBase : ToolState :=
  ⟨some 1, "w", some "input-available", none, some (.str "x"), none, none, none, some 100⟩

/-- `idleToolBase` with `lastLen` equal to its own current content length:
nothing new has accumulated since the last write. -/
def idleTool : ToolState :=
  { idleToolBase with lastLen := some (toolCurLen "t1" idleToolBase) }

/-- Run state holding only the idle tool record, with an empty text
segment. -/
def idleRun : RunState := ⟨"", none, 0, 0, [("t1", idleTool)]⟩

/-- C3 counterexample: flushing the idle tool record (no new content since
its last write, not forced) at a moment 300 ms after its last write
performs two store writes — the conversation-timestamp touch and a
message update — so a flush with no new content does not perform zero
store writes. -/
theorem idle_flush_still_writes_counterexample :
    buildToolContent "t1" idleTool = buildToolContent "t1" idleToolBase ∧
    idleTool.lastLen = some (toolCurLen "t1" idleTool) ∧
    (persistTool 400 true true false "t1" emptyStore idleRun).1.log.length = 2 ∧
    countMsgWrites (persistTool 400 true true false "t1" emptyStore idleRun).1.log = 1 :=
  ⟨rfl, rfl, rfl, rfl⟩

/-- C3 amended: flushing a unit with no new content since its last write
performs no message create and no message update — for the assistant text
segment always, and for a tool record provided the flush is not forced and
less than 300 ms have elapsed since the record's last write — but every
flush still performs the one store write refreshing the conversation's
last-activity timestamp. -/
theorem flush_no_new_content_no_message_write :
    (∀ (store : Store) (rs : RunState), rs.accText.length = rs.lastPersistedLen →
        (persistAssistant true true store rs).1.log = .sessionTouch :: store.log ∧
        (persistAssistant true true store rs).2 = rs) ∧
    (∀ (now : Nat) (id : String) (store : Store) (rs : RunState) (st : ToolState),
        lookupTool rs.toolState id = some st →
        st.lastLen = some (toolCurLen id st) →
        (now : Int) - (st.lastAt.getD 0 : Nat) < 300 →
        (persistTool now true true false id store rs).1.log = .sessionTouch :: store.log ∧
        (persistTool now true true false id store rs).2 = rs) := by
  constructor
  · intro store rs hlen
    rw [persistAssistant_skip true store rs (Or.inr hlen)]
    exact ⟨rfl, rfl⟩
  · intro now id store rs st h hlen htime
    have hw : toolShouldWrite now false st (toolCurLen id st) = false := by
      unfold toolShouldWrite
      rw [hlen]
      simp only [Bool.false_or, Option.isNone_some, Option.getD_some,
        Bool.or_eq_false_iff, decide_eq_false_iff_not]
      constructor
      · omega
      · omega
    rw [persistTool_noWrite now true false id store rs st h hw]
    exact ⟨rfl, rfl⟩

/-- C3 amended, witness: the idle text segment and (at 399 ms, just under
the elapsed-time bound) the idle tool record are both flushed without any
message write. -/
theorem flush_no_new_content_no_message_write_witness :
    ((persistAssistant true true emptyStore idleRun).1.log
        = .sessionTouch :: emptyStore.log ∧
     (persistAssistant true true emptyStore idleRun).2 = idleRun) ∧
    ((persistTool 399 true true false "t1" emptyStore idleRun).1.log
        = .sessionTouch :: emptyStore.log ∧
     (persistTool 399 true true false "t1" emptyStore idleRun).2 = idleRun) :=
  ⟨flush_no_new_content_no_message_write.1 emptyStore idleRun rfl,
   flush_no_new_content_no_message_write.2 399 "t1" emptyStore idleRun idleTool rfl rfl
     (by decide)⟩

/-! ## C5: the size/time write gate -/

/-- C5: during steady-state streaming a message write for a unit executes
only if the flush is forced, or the unit's content grew by at least 64
characters since its last write, or at least 300 ms elapsed since its
last write — for tool records through `persistTool`'s gate and for the
text segment through the loop's threshold gate. -/
theorem flush_threshold_gate :
    (∀ (now : Nat) (force : Bool) (id : String) (store : Store) (rs : RunState)
        (st : ToolState) (L : Nat),
        lookupTool rs.toolState id = some st → st.lastLen = some L →
        countMsgWrites (persistTool now true true force id store rs).1.log ≠
          countMsgWrites store.log →
        force = true ∨ (toolCurLen id st : Int) - (L : Int) ≥ 64 ∨
          (now : Int) - (st.lastAt.getD 0 : Nat) ≥ 300) ∧
    (∀ (now : Nat) (store : Store) (rs : RunState),
        countMsgWrites (loopGate now store rs).1.log ≠ countMsgWrites store.log →
        (rs.accText.length : Int) - (rs.lastPersistedLen : Int) ≥ 64 ∨
          (now : Int) - (rs.lastPersistAt : Int) ≥ 300) := by
  constructor
  · intro now force id store rs st L h hL hcount
    by_cases hw : toolShouldWrite now force st (toolCurLen id st) = true
    · by_cases hf : force = true
      · exact Or.inl hf
      · right
        unfold toolShouldWrite at hw
        rw [hL, Bool.eq_false_iff.mpr hf] at hw
        simp only [Option.isNone_some, Option.getD_some, Bool.false_or,
          Bool.or_eq_true, decide_eq_true_eq] at hw
        exact hw
    · exact absurd (by
        rw [persistTool_noWrite now true force id store rs st h
          (Bool.of_not_eq_true hw)]
        simp [Store.touch]) hcount
  · intro now store rs hcount
    unfold loopGate at hcount
    by_cases hg : (decide ((rs.accText.length : Int) - (rs.lastPersistedLen : Nat) ≥ 64)
        || decide ((now : Int) - (rs.lastPersistAt : Nat) ≥ 300)) = true
    · simpa only [Bool.or_eq_true, decide_eq_true_eq] using hg
    · rw [if_neg (by simpa using hg)] at hcount
      exact absurd rfl hcount

/-- An 80-character accumulated text. -/
def bigText : String := ⟨List.replicate 80 'a'⟩

/-- A run state sitting on 80 unflushed characters. -/
def gateRun : RunState := ⟨bigText, none, 0, 0, []⟩

/-- C5 witness: at the steady-state gate a write happened for a run with
80 unflushed characters, and indeed the growth threshold held. -/
theorem flush_threshold_gate_witness :
    (gateRun.accText.length : Int) - (gateRun.lastPersistedLen : Int) ≥ 64 ∨
      ((0 : Nat) : Int) - (gateRun.lastPersistAt : Int) ≥ 300 :=
  flush_threshold_gate.2 0 emptyStore gateRun (by decide)

/-! ## C9: store failures are swallowed and self-heal -/

theorem countMsgWrites_cons (w : StoreWrite) (l : List StoreWrite) :
    countMsgWrites (w :: l) =
      (if w.isMsgWrite = true then 1 else 0) + countMsgWrites l := by
  by_cases h : w.isMsgWrite = true <;>
    simp [countMsgWrites, h, List.filter_cons, Nat.add_comm]

theorem assistantWriteFor_isMsgWrite (store : Store) (rs : RunState) :
    (assistantWriteFor store rs).isMsgWrite = true := by
  cases h : rs.assistantMsgId <;> simp [assistantWriteFor, h, StoreWrite.isMsgWrite]

/-- C9: a failing store call during a flush is caught and discarded — the
function returns normally, performs no message write, is not retried
(at most one message write is ever attempted per flush), and leaves the
unit's progress markers untouched; the next successful flush with
unflushed growth then writes the full cumulative text, restoring the
record. -/
theorem store_failure_swallowed_selfheals :
    (∀ (w : Bool) (store : Store) (rs : RunState),
        persistAssistant false w store rs = (store, rs)) ∧
    (∀ (store : Store) (rs : RunState),
        countMsgWrites (persistAssistant true false store rs).1.log =
          countMsgWrites store.log ∧
        (persistAssistant true false store rs).2 = rs) ∧
    (∀ (now : Nat) (w f : Bool) (id : String) (store : Store) (rs : RunState),
        persistTool now false w f id store rs = (store, rs)) ∧
    (∀ (now : Nat) (f : Bool) (id : String) (store : Store) (rs : RunState),
        countMsgWrites (persistTool now true false f id store rs).1.log =
          countMsgWrites store.log ∧
        (persistTool now true false f id store rs).2 = rs) ∧
    (∀ (t w : Bool) (store : Store) (rs : RunState),
        countMsgWrites (persistAssistant t w store rs).1.log ≤
          countMsgWrites store.log + 1) ∧
    (∀ (store : Store) (rs : RunState), rs.accText ≠ "" →
        rs.accText.length ≠ rs.lastPersistedLen →
        (persistAssistant true true store rs).1.log =
          assistantWriteFor store rs :: .sessionTouch :: store.log ∧
        (persistAssistant true true store rs).2.lastPersistedLen =
          rs.accText.length) := by
  refine ⟨?_, ?_, ?_, ?_, ?_, ?_⟩
  · intro w store rs
    exact persistAssistant_touchFail w store rs
  · intro store rs
    by_cases hne : rs.accText = ""
    · rw [persistAssistant_skip false store rs (Or.inl hne)]
      exact ⟨by simp [Store.touch], rfl⟩
    · by_cases hgrow : rs.accText.length = rs.lastPersistedLen
      · rw [persistAssistant_skip false store rs (Or.inr hgrow)]
        exact ⟨by simp [Store.touch], rfl⟩
      · rw [persistAssistant_writeFail store rs hne hgrow]
        exact ⟨by simp [Store.touch], rfl⟩
  · intro now w f id store rs
    exact persistTool_touchFail now w f id store rs
  · intro now f id store rs
    cases h : lookupTool rs.toolState id with
    | none =>
        rw [persistTool_noRecord now false f id store rs h]
        exact ⟨by simp [Store.touch], rfl⟩
    | some st =>
        rw [persistTool_writeFail now f id store rs st h]
        exact ⟨by simp [Store.touch], rfl⟩
  · intro t w store rs
    rcases persistAssistant_log_cases t w store rs with hl | hl | hl <;> rw [hl]
    · omega
    · simp
    · rw [countMsgWrites_cons, countMsgWrites_touch,
        if_pos (assistantWriteFor_isMsgWrite store rs)]
      omega
  · intro store rs hne hgrow
    exact persistAssistant_write_log store rs hne hgrow

/-- C9 witness: a failed touch is a no-op, a failed message write leaves
the run state (markers included) unchanged, and the following successful
flush writes the full 80 accumulated characters. -/
theorem store_failure_swallowed_selfheals_witness :
    persistAssistant false true emptyStore gateRun = (emptyStore, gateRun) ∧
    (persistAssistant true false emptyStore gateRun).2 = gateRun ∧
    ((persistAssistant true true emptyStore gateRun).1.log =
        assistantWriteFor emptyStore gateRun :: .sessionTouch :: emptyStore.log ∧
     (persistAssistant true true emptyStore gateRun).2.lastPersistedLen =
        gateRun.accText.length) :=
  ⟨store_failure_swallowed_selfheals.1 true emptyStore gateRun,
   (store_failure_swallowed_selfheals.2.1 emptyStore gateRun).2,
   store_failure_swallowed_selfheals.2.2.2.2.2 emptyStore gateRun (by decide) (by decide)⟩

/-! ## C6: write discipline per persisted unit (corrected) -/

/-- A 100-character streamed partial tool input. -/
def longDelta : String := ⟨List.replicate 100 'a'⟩

/-- A fresh run state. -/
def freshRun : RunState := ⟨"", none, 0, 0, []⟩

/-- Tool lifecycle where a short structured input replaces a long streamed
partial input text. -/
def shrinkEvents : List StreamEvent :=
  [.toolInputStart "t1" "w", .toolInputDelta "t1" "" longDelta,
   .toolInputAvailable "t1" "" (.num 1)]

/-- The store and run state after interpreting `shrinkEvents`. -/
def shrinkFinal : Store × RunState :=
  shrinkEvents.foldl (fun p ev => processEvent 0 ev p.1 p.2) (emptyStore, freshRun)

set_option maxRecDepth 4096 in
/-- C6 counterexample: all three writes of the run target the same tool
message (id 1), yet the persisted content lengths over time are 71, 182,
81 (the log is newest first): the third write is shorter than the second,
so persisted content length for a tool record does regress. -/
theorem tool_write_length_regress_counterexample :
    shrinkFinal.1.log.filterMap StoreWrite.writtenId = [1, 1, 1] ∧
    shrinkFinal.1.log.filterMap StoreWrite.writtenLen = [81, 182, 71] ∧
    ¬ (182 ≤ 81) :=
  ⟨rfl, rfl, by decide⟩

/-- C6 amended: the first write for a unit performs a create and records
the returned message id, and every later write performs an update keyed by
that id carrying the full cumulative content — never an append; for an
assistant text segment the persisted length never decreases, but for a
tool record a later write may carry shorter content (when structured
input replaces longer streamed partial input text). -/
theorem persisted_unit_write_discipline :
    (∀ (store : Store) (rs : RunState), rs.assistantMsgId = none →
        rs.accText ≠ "" → rs.accText.length ≠ rs.lastPersistedLen →
        (persistAssistant true true store rs).2.assistantMsgId = some store.nextId ∧
        (persistAssistant true true store rs).1.log =
          .msgCreate store.nextId "assistant" (.text rs.accText) ::
            .sessionTouch :: store.log) ∧
    (∀ (store : Store) (rs : RunState) (m : Nat), rs.assistantMsgId = some m →
        rs.accText ≠ "" → rs.accText.length ≠ rs.lastPersistedLen →
        (persistAssistant true true store rs).1.log =
          .msgUpdate m (.text rs.accText) :: .sessionTouch :: store.log) ∧
    (∀ (store : Store) (rs : RunState),
        rs.lastPersistedLen ≤ rs.accText.length →
        rs.lastPersistedLen ≤ (persistAssistant true true store rs).2.lastPersistedLen) ∧
    (∀ (now : Nat) (f : Bool) (id : String) (store : Store) (rs : RunState)
        (st : ToolState), lookupTool rs.toolState id = some st → st.id = none →
        toolShouldWrite now f st (toolCurLen id st) = true →
        (persistTool now true true f id store rs).1.log =
          .msgCreate store.nextId "tool" (.tool (buildToolContent id st)) ::
            .sessionTouch :: store.log ∧
        lookupTool (persistTool now true true f id store rs).2.toolState id =
          some (st.afterWrite (some store.nextId) (toolCurLen id st) now)) ∧
    (∀ (now : Nat) (f : Bool) (id : String) (store : Store) (rs : RunState)
        (st : ToolState) (m : Nat), lookupTool rs.toolState id = some st →
        st.id = some m →
        toolShouldWrite now f st (toolCurLen id st) = true →
        (persistTool now true true f id store rs).1.log =
          .msgUpdate m (.tool (buildToolContent id st)) ::
            .sessionTouch :: store.log) := by
  refine ⟨?_, ?_, ?_, ?_, ?_⟩
  · intro store rs hid hne hgrow
    rw [persistAssistant_create store rs hne hgrow hid]
    exact ⟨rfl, by simp [Store.create, Store.touch]⟩
  · intro store rs m hid hne hgrow
    rw [persistAssistant_update store rs m hne hgrow hid]
    simp [Store.update, Store.touch]
  · intro store rs hle
    by_cases hne : rs.accText = ""
    · rw [persistAssistant_skip true store rs (Or.inl hne)]
    · by_cases hgrow : rs.accText.length = rs.lastPersistedLen
      · rw [persistAssistant_skip true store rs (Or.inr hgrow)]
      · rw [(persistAssistant_write_log store rs hne hgrow).2]
        exact hle
  · intro now f id store rs st h hid hw
    rw [persistTool_create now f id store rs st h hid hw]
    exact ⟨by simp [Store.create, Store.touch],
      by simp [RunState.withTool, lookupTool_setTool_self]⟩
  · intro now f id store rs st m h hid hw
    rw [persistTool_update now f id store rs st m h hid hw]
    simp [Store.update, Store.touch]

/-- C6 amended, witness: the first flush of the 80-character segment
creates message 1 and records it; a subsequent grown segment updates
message 1 with the full text; the marker never decreased. -/
theorem persisted_unit_write_discipline_witness :
    ((persistAssistant true true emptyStore gateRun).2.assistantMsgId = some 1 ∧
     (persistAssistant true true emptyStore gateRun).1.log =
       .msgCreate 1 "assistant" (.text gateRun.accText) ::
         .sessionTouch :: emptyStore.log) ∧
    gateRun.lastPersistedLen ≤ (persistAssistant true true emptyStore gateRun).2.lastPersistedLen :=
  ⟨persisted_unit_write_discipline.1 emptyStore gateRun rfl (by decide) (by decide),
   persisted_unit_write_discipline.2.2.1 emptyStore gateRun (by decide)⟩

/-! ## C8: client disconnect -/

/-- C8: on client disconnect the relay cancels only the client branch —
the persistence branch's cancellation state is untouched — and the
immediate unconditional flush persists every accumulated character not yet
flushed, with no size/time threshold involved. -/
theorem client_disconnect_flushes_text (relay : RelayState) (store : Store)
    (rs : RunState) (hne : rs.accText ≠ "")
    (hgrow : rs.accText.length ≠ rs.lastPersistedLen) :
    (onClientDisconnect relay store rs).1.clientCancelled = true ∧
    (onClientDisconnect relay store rs).1.persistCancelled = relay.persistCancelled ∧
    (onClientDisconnect relay store rs).2.1.log =
      assistantWriteFor store rs :: .sessionTouch :: store.log ∧
    (onClientDisconnect relay store rs).2.2.lastPersistedLen = rs.accText.length := by
  unfold onClientDisconnect
  exact ⟨rfl, rfl, (persistAssistant_write_log store rs hne hgrow).1,
    (persistAssistant_write_log store rs hne hgrow).2⟩

/-- C8 witness: a disconnect with 80 unflushed characters sitting in the
accumulator persists all 80 of them while leaving the persistence branch
running. -/
theorem client_disconnect_flushes_text_witness :
    gateRun.accText.length = 80 ∧
    ((onClientDisconnect ⟨false, false⟩ emptyStore gateRun).1.clientCancelled = true ∧
     (onClientDisconnect ⟨false, false⟩ emptyStore gateRun).1.persistCancelled =
       RelayState.persistCancelled ⟨false, false⟩ ∧
     (onClientDisconnect ⟨false, false⟩ emptyStore gateRun).2.1.log =
       assistantWriteFor emptyStore gateRun :: .sessionTouch :: emptyStore.log ∧
     (onClientDisconnect ⟨false, false⟩ emptyStore gateRun).2.2.lastPersistedLen =
       gateRun.accText.length) :=
  ⟨by decide,
   client_disconnect_flushes_text ⟨false, false⟩ emptyStore gateRun (by decide) (by decide)⟩
theorem persistAssistant_nextId_le (t w : Bool) (store : Store) (rs : RunState) :
    store.nextId ≤ (persistAssistant t w store rs).1.nextId := by
  cases t with
  | false => rw [persistAssistant_touchFail]
  | true =>
      by_cases hne : rs.accText = ""
      · rw [persistAssistant_skip _ _ _ (Or.inl hne)]; exact Nat.le_refl _
      · by_cases hgrow : rs.accText.length = rs.lastPersistedLen
        · rw [persistAssistant_skip _ _ _ (Or.inr hgrow)]; exact Nat.le_refl _
        · cases w with
          | false => rw [persistAssistant_writeFail _ _ hne hgrow]; exact Nat.le_refl _
          | true =>
              cases hid : rs.assistantMsgId with
              | none => rw [persistAssistant_create _ _ hne hgrow hid]; exact Nat.le_succ _
              | some m => rw [persistAssistant_update _ _ _ hne hgrow hid]; exact Nat.le_refl _

theorem persistTool_nextId_le (now : Nat) (t w f : Bool) (id : String)
    (store : Store) (rs : RunState) :
    store.nextId ≤ (persistTool now t w f id store rs).1.nextId := by
  cases t with
  | false => rw [persistTool_touchFail]
  | true =>
      cases h : lookupTool rs.toolState id with
      | none => rw [persistTool_noRecord _ _ _ _ _ _ h]; exact Nat.le_refl _
      | some st =>
          by_cases hw : toolShouldWrite now f st (toolCurLen id st) = true
          · cases w with
            | false => rw [persistTool_writeFail _ _ _ _ _ _ h]; exact Nat.le_refl _
            | true =>
                cases hid : st.id with
                | none => rw [persistTool_create _ _ _ _ _ _ h hid hw]; exact Nat.le_succ _
                | some m => rw [persistTool_update _ _ _ _ _ _ _ h hid hw]; exact Nat.le_refl _
          · rw [persistTool_noWrite _ _ _ _ _ _ _ h (Bool.of_not_eq_true hw)]; exact Nat.le_refl _

theorem persistTool_text_fields (now : Nat) (t w f : Bool) (id : String)
    (store : Store) (rs : RunState) :
    (persistTool now t w f id store rs).2.accText = rs.accText ∧
    (persistTool now t w f id store rs).2.assistantMsgId = rs.assistantMsgId ∧
    (persistTool now t w f id store rs).2.lastPersistedLen = rs.lastPersistedLen ∧
    (persistTool now t w f id store rs).2.lastPersistAt = rs.lastPersistAt := by
  cases t with
  | false => rw [persistTool_touchFail]; exact ⟨rfl, rfl, rfl, rfl⟩
  | true =>
      cases h : lookupTool rs.toolState id with
      | none => rw [persistTool_noRecord _ _ _ _ _ _ h]; exact ⟨rfl, rfl, rfl, rfl⟩
      | some st =>
          by_cases hw : toolShouldWrite now f st (toolCurLen id st) = true
          · cases w with
            | false =>
                rw [persistTool_writeFail _ _ _ _ _ _ h]; exact ⟨rfl, rfl, rfl, rfl⟩
            | true =>
                cases hid : st.id with
                | none =>
                    rw [persistTool_create _ _ _ _ _ _ h hid hw]
                    exact ⟨rfl, rfl, rfl, rfl⟩
                | some m =>
                    rw [persistTool_update _ _ _ _ _ _ _ h hid hw]
                    exact ⟨rfl, rfl, rfl, rfl⟩
          · rw [persistTool_noWrite _ _ _ _ _ _ _ h (Bool.of_not_eq_true hw)]
            exact ⟨rfl, rfl, rfl, rfl⟩

theorem persistAssistant_rs_cases (t w : Bool) (store : Store) (rs : RunState) :
    (persistAssistant t w store rs).2 = rs ∨
    (persistAssistant t w store rs).2 =
      { rs with assistantMsgId := some store.nextId,
                lastPersistedLen := rs.accText.length } ∨
    (persistAssistant t w store rs).2 =
      { rs with lastPersistedLen := rs.accText.length } := by
  cases t with
  | false => left; rw [persistAssistant_touchFail]
  | true =>
      by_cases hne : rs.accText = ""
      · left; rw [persistAssistant_skip _ _ _ (Or.inl hne)]
      · by_cases hgrow : rs.accText.length = rs.lastPersistedLen
        · left; rw [persistAssistant_skip _ _ _ (Or.inr hgrow)]
        · cases w with
          | false => left; rw [persistAssistant_writeFail _ _ hne hgrow]
          | true =>
              cases hid : rs.assistantMsgId with
              | none => right; left; rw [persistAssistant_create _ _ hne hgrow hid]
              | some m =>
                  right; right
                  rw [persistAssistant_update _ _ _ hne hgrow hid, hid]

theorem flushAssistantAndReset_state (now : Nat) (store : Store) (rs : RunState) :
    (flushAssistantAndReset now store rs).2 =
      ⟨"", none, 0, now, rs.toolState⟩ := by
  unfold flushAssistantAndReset
  rcases persistAssistant_rs_cases true true store rs with h | h | h <;>
    simp only [h]

theorem lookupTool_ensureTool (rs : RunState) (id : String) (fresh : ToolState) :
    lookupTool (ensureTool rs id fresh).toolState id =
      some ((lookupTool rs.toolState id).getD fresh) := by
  unfold ensureTool
  cases h : lookupTool rs.toolState id <;> simp [h, lookupTool_setTool_self]

theorem persistTool_log_mem (now : Nat) (t w f : Bool) (id : String)
    (store : Store) (rs : RunState) (x : StoreWrite) (hx : x ∈ store.log) :
    x ∈ (persistTool now t w f id store rs).1.log := by
  rcases persistTool_log_cases now t w f id store rs with h | h | ⟨wr, _, h⟩ <;>
    rw [h] <;> simp [hx]

/-- A successful `persistTool` never changes the content fields of the
record for its id — only the message id and the write markers. -/
theorem persistTool_lookup_preserved (now : Nat) (t w f : Bool) (id : String)
    (store : Store) (rs : RunState) (st : ToolState)
    (h : lookupTool rs.toolState id = some st) :
    ∃ st', lookupTool (persistTool now t w f id store rs).2.toolState id = some st' ∧
      st'.name = st.name ∧ st'.status = st.status ∧ st'.inputText = st.inputText ∧
      st'.input = st.input ∧ st'.output = st.output ∧ st'.errorText = st.errorText := by
  cases t with
  | false =>
      rw [persistTool_touchFail]
      exact ⟨st, h, rfl, rfl, rfl, rfl, rfl, rfl⟩
  | true =>
      by_cases hw : toolShouldWrite now f st (toolCurLen id st) = true
      · cases w with
        | false =>
            rw [persistTool_writeFail _ _ _ _ _ _ h]
            exact ⟨st, h, rfl, rfl, rfl, rfl, rfl, rfl⟩
        | true =>
            cases hid : st.id with
            | none =>
                rw [persistTool_create _ _ _ _ _ _ h hid hw]
                exact ⟨st.afterWrite (some store.nextId) (toolCurLen id st) now,
                  by simp [RunState.withTool, lookupTool_setTool_self],
                  rfl, rfl, rfl, rfl, rfl, rfl⟩
            | some m =>
                rw [persistTool_update _ _ _ _ _ _ _ h hid hw]
                exact ⟨st.afterWrite st.id (toolCurLen id st) now,
                  by simp [RunState.withTool, lookupTool_setTool_self],
                  rfl, rfl, rfl, rfl, rfl, rfl⟩
      · rw [persistTool_noWrite _ _ _ _ _ _ _ h (Bool.of_not_eq_true hw)]
        exact ⟨st, h, rfl, rfl, rfl, rfl, rfl, rfl⟩

/-- A forced flush always passes the write gate. -/
theorem toolShouldWrite_force (now : Nat) (st : ToolState) (curLen : Nat) :
    toolShouldWrite now true st curLen = true := by
  simp [toolShouldWrite]

theorem ensureTool_fields (rs : RunState) (id : String) (fresh : ToolState) :
    (ensureTool rs id fresh).accText = rs.accText ∧
    (ensureTool rs id fresh).assistantMsgId = rs.assistantMsgId ∧
    (ensureTool rs id fresh).lastPersistedLen = rs.lastPersistedLen ∧
    (ensureTool rs id fresh).lastPersistAt = rs.lastPersistAt := by
  unfold ensureTool
  split <;> exact ⟨rfl, rfl, rfl, rfl⟩

/-- The run state after an event ensured a record for `id` and stored the
updated record `st'` for it. -/
def afterToolEvent (rs : RunState) (id : String) (fresh st' : ToolState) : RunState :=
  { ensureTool rs id fresh with
      toolState := setTool (ensureTool rs id fresh).toolState id st' }

/-- The record the `tool-input-start` case stores before its forced flush. -/
def startToolState (rs : RunState) (tid tname : String) : ToolState :=
  { (lookupTool rs.toolState tid).getD (freshToolStreaming tname) with
      name := updName tname ((lookupTool rs.toolState tid).getD (freshToolStreaming tname)).name
      status := some "input-streaming" }

theorem handleEvent_toolInputStart_eq (now : Nat) (store : Store) (rs : RunState)
    (tid tname : String) :
    handleEvent now (.toolInputStart tid tname) store rs =
      ((persistTool now true true true tid (flushAssistantAndReset now store rs).1
          (afterToolEvent ⟨"", none, 0, now, rs.toolState⟩ tid (freshToolStreaming tname)
            (startToolState rs tid tname))).1,
       (persistTool now true true true tid (flushAssistantAndReset now store rs).1
          (afterToolEvent ⟨"", none, 0, now, rs.toolState⟩ tid (freshToolStreaming tname)
            (startToolState rs tid tname))).2,
       false) := by
  simp only [handleEvent]
  rw [flushAssistantAndReset_state, lookupTool_ensureTool]
  simp only [Option.getD, afterToolEvent, startToolState]

theorem afterToolEvent_fields (rs : RunState) (id : String) (fresh st' : ToolState) :
    (afterToolEvent rs id fresh st').accText = rs.accText ∧
    (afterToolEvent rs id fresh st').assistantMsgId = rs.assistantMsgId ∧
    (afterToolEvent rs id fresh st').lastPersistedLen = rs.lastPersistedLen ∧
    lookupTool (afterToolEvent rs id fresh st').toolState id = some st' :=
  ⟨(ensureTool_fields rs id fresh).1, (ensureTool_fields rs id fresh).2.1,
   (ensureTool_fields rs id fresh).2.2.1, lookupTool_setTool_self _ _ _⟩

/-- C4: interpreting a `tool-input-start` event first flushes any non-empty
current assistant text segment (when it holds unflushed growth, its full
text is written), then resets the segment — empty accumulator, no recorded
message id, zero progress — before the tool record is opened with status
input-streaming; a text delta arriving after the event lands in the fresh
segment, whose next write allocates a new message id distinct from the
pre-tool segment's persisted message, so post-tool text is never merged
into the pre-tool message. -/
theorem toolInputStart_closes_text_segment (now : Nat) (store : Store) (rs : RunState)
    (tid tname : String) (s' : Store) (r' : RunState) (added : Bool)
    (hne : rs.accText ≠ "")
    (hrun : handleEvent now (.toolInputStart tid tname) store rs = (s', r', added)) :
    r'.accText = "" ∧ r'.assistantMsgId = none ∧ r'.lastPersistedLen = 0 ∧
    (∃ st, lookupTool r'.toolState tid = some st ∧ st.status = some "input-streaming") ∧
    (rs.accText.length ≠ rs.lastPersistedLen → assistantWriteFor store rs ∈ s'.log) ∧
    store.nextId ≤ s'.nextId ∧
    (∀ d : String, d ≠ "" →
       (handleEvent now (.textDelta d) s' r').2.1.accText = d ∧
       (persistAssistant true true s' ((handleEvent now (.textDelta d) s' r').2.1)).2.assistantMsgId
         = some s'.nextId ∧
       (∀ m, rs.assistantMsgId = some m → m < store.nextId → m ≠ s'.nextId)) := by
  rw [handleEvent_toolInputStart_eq] at hrun
  injection hrun with hs hrest
  injection hrest with hr hadd
  have htf := persistTool_text_fields now true true true tid
    (flushAssistantAndReset now store rs).1
    (afterToolEvent ⟨"", none, 0, now, rs.toolState⟩ tid (freshToolStreaming tname)
      (startToolState rs tid tname))
  have hAf := afterToolEvent_fields ⟨"", none, 0, now, rs.toolState⟩ tid
    (freshToolStreaming tname) (startToolState rs tid tname)
  have hacc : r'.accText = "" := by rw [← hr, htf.1]; exact hAf.1
  have hmid : r'.assistantMsgId = none := by rw [← hr, htf.2.1]; exact hAf.2.1
  have hlen : r'.lastPersistedLen = 0 := by rw [← hr, htf.2.2.1]; exact hAf.2.2.1
  have hnext : store.nextId ≤ s'.nextId := by
    rw [← hs]
    exact le_trans (persistAssistant_nextId_le true true store rs)
      (persistTool_nextId_le now true true true tid (flushAssistantAndReset now store rs).1
        (afterToolEvent ⟨"", none, 0, now, rs.toolState⟩ tid (freshToolStreaming tname)
          (startToolState rs tid tname)))
  refine ⟨hacc, hmid, hlen, ?_, ?_, hnext, ?_⟩
  · obtain ⟨st', hlk, _, hstat, _⟩ := persistTool_lookup_preserved now true true true tid
      (flushAssistantAndReset now store rs).1
      (afterToolEvent ⟨"", none, 0, now, rs.toolState⟩ tid (freshToolStreaming tname)
        (startToolState rs tid tname))
      (startToolState rs tid tname) hAf.2.2.2
    refine ⟨st', by rw [← hr]; exact hlk, by rw [hstat]; rfl⟩
  · intro hgrow
    have hmem : assistantWriteFor store rs ∈ (flushAssistantAndReset now store rs).1.log := by
      have hfl : (flushAssistantAndReset now store rs).1 =
          (persistAssistant true true store rs).1 := rfl
      rw [hfl, (persistAssistant_write_log store rs hne hgrow).1]
      exact List.mem_cons_self _ _
    rw [← hs]
    exact persistTool_log_mem _ _ _ _ _ _ _ _ hmem
  · intro d hd
    have haccd : (handleEvent now (.textDelta d) s' r').2.1.accText = d := by
      show r'.accText ++ d = d
      rw [hacc]
      rfl
    have hgrow2 : ((handleEvent now (.textDelta d) s' r').2.1).accText.length ≠
        ((handleEvent now (.textDelta d) s' r').2.1).lastPersistedLen := by
      rw [haccd]
      show d.length ≠ r'.lastPersistedLen
      rw [hlen]
      intro h0
      exact hd (String.ext (by simpa [String.length] using List.length_eq_zero.mp h0))
    have hmid2 : ((handleEvent now (.textDelta d) s' r').2.1).assistantMsgId = none := by
      show r'.assistantMsgId = none
      exact hmid
    have hne2 : ((handleEvent now (.textDelta d) s' r').2.1).accText ≠ "" := by
      rw [haccd]; exact hd
    refine ⟨haccd, ?_, ?_⟩
    · rw [persistAssistant_create s' _ hne2 hgrow2 hmid2]
    · intro m hm hmlt
      exact Nat.ne_of_lt (lt_of_lt_of_le hmlt hnext)

/-- The pre-tool run state of the C4 witness: text "Hi" with one more
character than last persisted, already holding message id 0. -/
def preToolRun : RunState := ⟨"Hi", some 0, 1, 0, []⟩

/-- The interpreter output of the C4 witness. -/
def startOut : Store × RunState × Bool :=
  handleEvent 0 (.toolInputStart "t1" "w") emptyStore preToolRun

/-- C4 witness. -/
theorem toolInputStart_closes_text_segment_witness :
    startOut.2.1.accText = "" ∧ startOut.2.1.assistantMsgId = none ∧
    startOut.2.1.lastPersistedLen = 0 ∧
    (∃ st, lookupTool startOut.2.1.toolState "t1" = some st ∧
      st.status = some "input-streaming") ∧
    (preToolRun.accText.length ≠ preToolRun.lastPersistedLen →
      assistantWriteFor emptyStore preToolRun ∈ startOut.1.log) ∧
    emptyStore.nextId ≤ startOut.1.nextId ∧
    (∀ d : String, d ≠ "" →
       (handleEvent 0 (.textDelta d) startOut.1 startOut.2.1).2.1.accText = d ∧
       (persistAssistant true true startOut.1
          ((handleEvent 0 (.textDelta d) startOut.1 startOut.2.1).2.1)).2.assistantMsgId
         = some startOut.1.nextId ∧
       (∀ m, preToolRun.assistantMsgId = some m → m < emptyStore.nextId →
          m ≠ startOut.1.nextId)) :=
  toolInputStart_closes_text_segment 0 emptyStore preToolRun "t1" "w"
    startOut.1 startOut.2.1 startOut.2.2 (by decide) rfl

/-- The record stored by a `tool-input-delta` event for an unknown id. -/
def deltaFreshState (name d : String) : ToolState :=
  { freshToolStreaming name with
      name := updName name (freshToolStreaming name).name
      inputText := some ("" ++ d)
      status := some "input-streaming" }

/-- The record stored by a `tool-input-available` event for an unknown id. -/
def inputAvailFreshState (name : String) (v : JsonValue) : ToolState :=
  { freshToolBare name with
      name := updName name (freshToolBare name).name
      input := some v
      status := some "input-available" }

/-- The record stored by a `tool-input-error` event for an unknown id. -/
def inputErrFreshState (name : String) (v : Option JsonValue) (e : String) : ToolState :=
  { freshToolBare name with
      name := updName name (freshToolBare name).name
      input := match v with | some v' => some v' | none => (freshToolBare name).input
      errorText := some (if e = "" then "Tool input error" else e)
      status := some "output-error" }

/-- The record stored by a `tool-output-available` event for an unknown id. -/
def outputAvailFreshState (name : String) (v : JsonValue) : ToolState :=
  { freshToolBare name with
      name := updName name (freshToolBare name).name
      output := some v
      status := some "output-available" }

/-- The record stored by a `tool-output-error` event for an unknown id. -/
def outputErrFreshState (name e : String) : ToolState :=
  { freshToolBare name with
      name := updName name (freshToolBare name).name
      errorText := some (if e = "" then "Tool execution error" else e)
      status := some "output-error" }

theorem handleEvent_toolInputDelta_of_absent (now : Nat) (store : Store) (rs : RunState)
    (id name d : String) (hnone : lookupTool rs.toolState id = none) :
    handleEvent now (.toolInputDelta id name d) store rs =
      ((persistTool now true true false id store
          (afterToolEvent rs id (freshToolStreaming name) (deltaFreshState name d))).1,
       (persistTool now true true false id store
          (afterToolEvent rs id (freshToolStreaming name) (deltaFreshState name d))).2,
       false) := by
  simp only [handleEvent]
  rw [lookupTool_ensureTool, hnone]
  simp only [Option.getD, afterToolEvent, deltaFreshState, freshToolStreaming]

theorem handleEvent_toolInputAvailable_of_absent (now : Nat) (store : Store) (rs : RunState)
    (id name : String) (v : JsonValue) (hnone : lookupTool rs.toolState id = none) :
    handleEvent now (.toolInputAvailable id name v) store rs =
      ((persistTool now true true true id store
          (afterToolEvent rs id (freshToolBare name) (inputAvailFreshState name v))).1,
       (persistTool now true true true id store
          (afterToolEvent rs id (freshToolBare name) (inputAvailFreshState name v))).2,
       false) := by
  simp only [handleEvent]
  rw [lookupTool_ensureTool, hnone]
  simp only [Option.getD, afterToolEvent, inputAvailFreshState, freshToolBare]

theorem handleEvent_toolInputError_of_absent (now : Nat) (store : Store) (rs : RunState)
    (id name : String) (v : Option JsonValue) (e : String)
    (hnone : lookupTool rs.toolState id = none) :
    handleEvent now (.toolInputError id name v e) store rs =
      ((persistTool now true true true id store
          (afterToolEvent rs id (freshToolBare name) (inputErrFreshState name v e))).1,
       (persistTool now true true true id store
          (afterToolEvent rs id (freshToolBare name) (inputErrFreshState name v e))).2,
       false) := by
  simp only [handleEvent]
  rw [lookupTool_ensureTool, hnone]
  simp only [Option.getD, afterToolEvent, inputErrFreshState, freshToolBare]

theorem handleEvent_toolOutputAvail_of_absent (now : Nat) (store : Store) (rs : RunState)
    (id name : String) (v : JsonValue) (hnone : lookupTool rs.toolState id = none) :
    handleEvent now (.toolOutputAvail id name v) store rs =
      ((persistTool now true true true id store
          (afterToolEvent rs id (freshToolBare name) (outputAvailFreshState name v))).1,
       (persistTool now true true true id store
          (afterToolEvent rs id (freshToolBare name) (outputAvailFreshState name v))).2,
       false) := by
  simp only [handleEvent]
  rw [lookupTool_ensureTool, hnone]
  simp only [Option.getD, afterToolEvent, outputAvailFreshState, freshToolBare]

theorem handleEvent_toolOutputErr_of_absent (now : Nat) (store : Store) (rs : RunState)
    (id name e : String) (hnone : lookupTool rs.toolState id = none) :
    handleEvent now (.toolOutputErr id name e) store rs =
      ((persistTool now true true true id store
          (afterToolEvent rs id (freshToolBare name) (outputErrFreshState name e))).1,
       (persistTool now true true true id store
          (afterToolEvent rs id (freshToolBare name) (outputErrFreshState name e))).2,
       false) := by
  simp only [handleEvent]
  rw [lookupTool_ensureTool, hnone]
  simp only [Option.getD, afterToolEvent, outputErrFreshState, freshToolBare]

/-- C10: any tool lifecycle event other than tool-input-start that names a
tool-call id with no existing record creates a fresh record for that id
and applies the event's effect to it — no preceding tool-input-start is
required for a tool event to be processed. -/
theorem unknown_tool_id_creates_record (now : Nat) (store : Store) (rs : RunState)
    (id name d e : String) (v : JsonValue)
    (hnone : lookupTool rs.toolState id = none) (he : e ≠ "") :
    (∃ st, lookupTool (handleEvent now (.toolInputDelta id name d) store rs).2.1.toolState id
        = some st ∧ st.inputText = some d ∧ st.status = some "input-streaming") ∧
    (∃ st, lookupTool (handleEvent now (.toolInputAvailable id name v) store rs).2.1.toolState id
        = some st ∧ st.input = some v ∧ st.status = some "input-available") ∧
    (∃ st, lookupTool (handleEvent now (.toolInputError id name (some v) e) store rs).2.1.toolState id
        = some st ∧ st.input = some v ∧ st.errorText = some e ∧ st.status = some "output-error") ∧
    (∃ st, lookupTool (handleEvent now (.toolOutputAvail id name v) store rs).2.1.toolState id
        = some st ∧ st.output = some v ∧ st.status = some "output-available") ∧
    (∃ st, lookupTool (handleEvent now (.toolOutputErr id name e) store rs).2.1.toolState id
        = some st ∧ st.errorText = some e ∧ st.status = some "output-error") := by
  refine ⟨?_, ?_, ?_, ?_, ?_⟩
  · rw [handleEvent_toolInputDelta_of_absent now store rs id name d hnone]
    obtain ⟨st', hlk, hnm, hstat, hitext, hinp, houtp, herr⟩ :=
      persistTool_lookup_preserved now true true false id store
        (afterToolEvent rs id (freshToolStreaming name) (deltaFreshState name d))
        (deltaFreshState name d)
        (afterToolEvent_fields rs id (freshToolStreaming name) (deltaFreshState name d)).2.2.2
    exact ⟨st', hlk, by rw [hitext]; rfl, by rw [hstat]; rfl⟩
  · rw [handleEvent_toolInputAvailable_of_absent now store rs id name v hnone]
    obtain ⟨st', hlk, hnm, hstat, hitext, hinp, houtp, herr⟩ :=
      persistTool_lookup_preserved now true true true id store
        (afterToolEvent rs id (freshToolBare name) (inputAvailFreshState name v))
        (inputAvailFreshState name v)
        (afterToolEvent_fields rs id (freshToolBare name) (inputAvailFreshState name v)).2.2.2
    exact ⟨st', hlk, by rw [hinp]; rfl, by rw [hstat]; rfl⟩
  · rw [handleEvent_toolInputError_of_absent now store rs id name (some v) e hnone]
    obtain ⟨st', hlk, hnm, hstat, hitext, hinp, houtp, herr⟩ :=
      persistTool_lookup_preserved now true true true id store
        (afterToolEvent rs id (freshToolBare name) (inputErrFreshState name (some v) e))
        (inputErrFreshState name (some v) e)
        (afterToolEvent_fields rs id (freshToolBare name)
          (inputErrFreshState name (some v) e)).2.2.2
    refine ⟨st', hlk, by rw [hinp]; rfl, ?_, by rw [hstat]; rfl⟩
    rw [herr]
    show some (if e = "" then "Tool input error" else e) = some e
    rw [if_neg he]
  · rw [handleEvent_toolOutputAvail_of_absent now store rs id name v hnone]
    obtain ⟨st', hlk, hnm, hstat, hitext, hinp, houtp, herr⟩ :=
      persistTool_lookup_preserved now true true true id store
        (afterToolEvent rs id (freshToolBare name) (outputAvailFreshState name v))
        (outputAvailFreshState name v)
        (afterToolEvent_fields rs id (freshToolBare name) (outputAvailFreshState name v)).2.2.2
    exact ⟨st', hlk, by rw [houtp]; rfl, by rw [hstat]; rfl⟩
  · rw [handleEvent_toolOutputErr_of_absent now store rs id name e hnone]
    obtain ⟨st', hlk, hnm, hstat, hitext, hinp, houtp, herr⟩ :=
      persistTool_lookup_preserved now true true true id store
        (afterToolEvent rs id (freshToolBare name) (outputErrFreshState name e))
        (outputErrFreshState name e)
        (afterToolEvent_fields rs id (freshToolBare name) (outputErrFreshState name e)).2.2.2
    refine ⟨st', hlk, ?_, by rw [hstat]; rfl⟩
    rw [herr]
    show some (if e = "" then "Tool execution error" else e) = some e
    rw [if_neg he]

/-- C10 witness. -/
theorem unknown_tool_id_creates_record_witness :
    (∃ st, lookupTool (handleEvent 0 (.toolInputDelta "t9" "w" "x") emptyStore freshRun).2.1.toolState "t9"
        = some st ∧ st.inputText = some "x" ∧ st.status = some "input-streaming") ∧
    (∃ st, lookupTool (handleEvent 0 (.toolInputAvailable "t9" "w" (.str "y")) emptyStore freshRun).2.1.toolState "t9"
        = some st ∧ st.input = some (.str "y") ∧ st.status = some "input-available") ∧
    (∃ st, lookupTool (handleEvent 0 (.toolInputError "t9" "w" (some (.str "y")) "boom") emptyStore freshRun).2.1.toolState "t9"
        = some st ∧ st.input = some (.str "y") ∧ st.errorText = some "boom" ∧
        st.status = some "output-error") ∧
    (∃ st, lookupTool (handleEvent 0 (.toolOutputAvail "t9" "w" (.str "y")) emptyStore freshRun).2.1.toolState "t9"
        = some st ∧ st.output = some (.str "y") ∧ st.status = some "output-available") ∧
    (∃ st, lookupTool (handleEvent 0 (.toolOutputErr "t9" "w" "boom") emptyStore freshRun).2.1.toolState "t9"
        = some st ∧ st.errorText = some "boom" ∧ st.status = some "output-error") :=
  unknown_tool_id_creates_record 0 emptyStore freshRun "t9" "w" "x" "boom" (.str "y")
    rfl (by decide)

/-! ## C7: data-line payload extraction (corrected) -/

/-- C7 counterexample: on the line `data:  hi ` (two spaces after the
marker, one trailing space) the decoder trims the whole line and strips
ALL leading whitespace after the marker, emitting `hi`; the claimed rule
— exactly one leading space stripped and every other character of the
remainder preserved verbatim — would emit ` hi `. -/
theorem dataLine_whitespace_counterexample :
    dataLinePayload "data:  hi ".toList = some "hi".toList ∧
    specDataLinePayload "data:  hi ".toList = some " hi ".toList ∧
    dataLinePayload "data:  hi ".toList ≠ specDataLinePayload "data:  hi ".toList :=
  ⟨rfl, rfl, by decide⟩

/-- C7 amended: a line contributes a payload only if, after trimming the
line's surrounding whitespace, it begins with the `data:` marker; the
emitted payload is the trimmed line's remainder after the marker with all
leading whitespace stripped (so a payload never begins with whitespace and
the line's trailing whitespace is removed rather than preserved), and an
empty remainder or the literal `[DONE]` sentinel yields no event. -/
theorem dataLinePayload_characterization (line : List Char) :
    (¬ dataMarker.isPrefixOf (trimChars line) → dataLinePayload line = none) ∧
    (∀ p, dataLinePayload line = some p →
       p = dropWs ((trimChars line).drop 5) ∧ p ≠ [] ∧ p ≠ doneSentinel ∧
       dropWs p = p) := by
  constructor
  · intro h
    unfold dataLinePayload
    simp only [if_neg h]
  · intro p hp
    unfold dataLinePayload at hp
    by_cases hpre : dataMarker.isPrefixOf (trimChars line)
    · rw [if_pos hpre] at hp
      by_cases hq : dropWs ((trimChars line).drop 5) = [] ∨
          dropWs ((trimChars line).drop 5) = doneSentinel
      · rw [if_pos (by simpa using hq)] at hp
        exact absurd hp (by simp)
      · rw [if_neg (by simpa using hq)] at hp
        have hpq : p = dropWs ((trimChars line).drop 5) := (Option.some.injEq _ _ ▸ hp).symm
        push_neg at hq
        exact ⟨hpq, by rw [hpq]; exact hq.1, by rw [hpq]; exact hq.2,
          by rw [hpq]; exact dropWs_idem _⟩
    · rw [if_neg hpre] at hp
      exact absurd hp (by simp)

/-- C7 amended, witness: a non-data line contributes nothing, and the
payload of `data: hi` is `hi` with the characterized shape. -/
theorem dataLinePayload_characterization_witness :
    dataLinePayload "x".toList = none ∧
    ("hi".toList = dropWs ((trimChars "data: hi".toList).drop 5) ∧ "hi".toList ≠ [] ∧
      "hi".toList ≠ doneSentinel ∧ dropWs "hi".toList = "hi".toList) :=
  ⟨(dataLinePayload_characterization "x".toList).1 (by decide),
   (dataLinePayload_characterization "data: hi".toList).2 "hi".toList rfl⟩

end AgentsBackend
